import Mathlib

/-
  Verification development for the memory-v2 engine of
  src/extensions/memory-v2/index.ts (the V3, graph-enabled copy of the
  plugin; line references below are into that file).

  Modelling conventions:
  * JavaScript numbers are modelled as exact rationals (ℚ).  Every numeric
    literal that occurs in the source (0.4, 0.3, 0.2, 0.1, 0.6, 0.65, 2.0,
    365, ...) is exactly representable in binary-scaled decimal and the
    score arithmetic consists of +, *, /, min, max only, so the rational
    model tracks the algorithm faithfully.  The single exception is
    Math.sqrt inside cosine similarity, which is modelled with Real.sqrt
    (see cosineSimilarityF32 below).
  * A JS value that may be `undefined` at runtime is an Option.  In
    particular, entries read back by loadIndex are raw JSON.parse results
    cast to V2MemoryEntry without validation, so `file`, `line`, `tags`,
    `relations`, `accessCount`, `lastAccessed`, `date` can all be absent
    even though the TS type declares some of them required.
  * `timestampMs` holds the value of `new Date(entry.timestamp).getTime()`
    for an entry whose timestamp parses; the model's domain is entries
    with parseable timestamps (an unparseable timestamp yields NaN in JS
    and poisons every score, a case no claim quantifies over).
  * File I/O is modelled by passing the parsed index value directly:
    loadIndex(path) performs JSON.parse line by line and therefore returns
    freshly allocated entry objects on every call; two loads of the same
    file yield equal but non-aliased structures.  This matters for the
    search tool, which loads the index twice (once inside searchMemories,
    once in its own body) and mutates only the first load's objects.
-/

namespace OpenClawMemoryV2

/- String primitives, modelled at the character-list level (the core
library's byte-position-based String functions are extensionally the
same but do not reduce definitionally). -/

/-- String.prototype.toLowerCase (ASCII, which is all the engine compares). -/
def toLowerStr (s : String) : String :=
  String.mk (s.data.map Char.toLower)

/-- String.prototype.startsWith. -/
def strStartsWith (s pre : String) : Bool :=
  List.isPrefixOf pre.data s.data

/-- Split at every character satisfying p, keeping empty pieces
(the behavior of String.split, hence of a per-character /\s/ split). -/
def splitWsAux (p : Char → Bool) : List Char → List Char → List String
  | [], acc => [String.mk acc.reverse]
  | c :: cs, acc =>
      if p c then String.mk acc.reverse :: splitWsAux p cs []
      else splitWsAux p cs (c :: acc)

/-- Split a string at whitespace characters. -/
def splitWs (s : String) : List String :=
  splitWsAux Char.isWhitespace s.data []

/-- Relation types, the closed set from index.ts line 629. -/
inductive MemoryRelationType where
  | caused
  | caused_by
  | related
  | supersedes
  | contradicts
  | elaborates
deriving DecidableEq, Repr

/-- One relation edge `{id, type}` (index.ts line 637). -/
structure MemoryRelation where
  id : String
  type : MemoryRelationType
deriving DecidableEq, Repr

/-- A stored embedding: either the legacy plain numeric array or the
current base64 form.  In this model both carry the decoded float values;
the byte-level faithfulness of the base64 codec is verified separately
(encodeEmbedding / decodeEmbedding below). -/
inductive Embedding where
  | legacy (v : List ℚ)
  | binary (v : List ℚ)
deriving DecidableEq, Repr

/-- One memory record (index.ts line 642).  Optional fields reflect what
can actually be absent in a JSON line parsed by loadIndex. -/
structure V2MemoryEntry where
  id : String
  timestampMs : ℚ
  date : Option String
  type : String
  importance : ℚ
  content : String
  file : Option String
  line : Option ℚ
  tags : List String
  embedding : Option Embedding
  relations : Option (List MemoryRelation)
  accessCount : Option ℚ
  lastAccessed : Option String
deriving DecidableEq, Repr

/-- The whole index (index.ts line 660). -/
structure V2MemoryIndex where
  version : String
  lastUpdated : String
  memories : List V2MemoryEntry
  embeddingModel : Option String
deriving DecidableEq, Repr

/- ==========================================================================
   Binary embedding utilities (index.ts lines 807-821)

   encodeEmbedding: `Buffer.from(new Float32Array(floats).buffer).toString("base64")`
   decodeEmbedding: `new Float32Array(Buffer.from(b64, "base64").buffer, off, len/4)`

   A float32-representable JS number is characterised exactly by its 32-bit
   pattern, and `new Float32Array(floats)` stores those patterns; Buffer
   views the bytes little-endian (Node on little-endian hosts).  So the
   codec is modelled on vectors of 32-bit words (Nat < 2^32): words to
   little-endian bytes, bytes to standard base64 text, and back.
   ========================================================================== -/

/-- The standard base64 alphabet character for a 6-bit value. -/
def b64Char (n : Nat) : Char :=
  if n < 26 then Char.ofNat (65 + n)
  else if n < 52 then Char.ofNat (97 + (n - 26))
  else if n < 62 then Char.ofNat (48 + (n - 52))
  else if n = 62 then Char.ofNat 43
  else Char.ofNat 47

/-- Inverse of the base64 alphabet (other characters map to 0; Node's
decoder skips invalid characters, which never arise on encoder output). -/
def b64Val (c : Char) : Nat :=
  let n := c.toNat
  if 65 ≤ n ∧ n ≤ 90 then n - 65
  else if 97 ≤ n ∧ n ≤ 122 then n - 97 + 26
  else if 48 ≤ n ∧ n ≤ 57 then n - 48 + 52
  else if n = 43 then 62
  else if n = 47 then 63
  else 0

/-- Base64-encode a byte sequence (with '=' padding, as Node produces). -/
def base64EncodeBytes : List Nat → List Char
  | [] => []
  | [b1] => [b64Char (b1 / 4), b64Char (b1 % 4 * 16), '=', '=']
  | [b1, b2] => [b64Char (b1 / 4), b64Char (b1 % 4 * 16 + b2 / 16), b64Char (b2 % 16 * 4), '=']
  | b1 :: b2 :: b3 :: rest =>
      b64Char (b1 / 4) :: b64Char (b1 % 4 * 16 + b2 / 16) ::
      b64Char (b2 % 16 * 4 + b3 / 64) :: b64Char (b3 % 64) :: base64EncodeBytes rest

/-- Base64-decode to bytes (handling '=' padding). -/
def base64DecodeChars : List Char → List Nat
  | c1 :: c2 :: c3 :: c4 :: rest =>
      if c3 = '=' then [b64Val c1 * 4 + b64Val c2 / 16]
      else if c4 = '=' then
        [b64Val c1 * 4 + b64Val c2 / 16, b64Val c2 % 16 * 16 + b64Val c3 / 4]
      else
        (b64Val c1 * 4 + b64Val c2 / 16) :: (b64Val c2 % 16 * 16 + b64Val c3 / 4) ::
        (b64Val c3 % 4 * 64 + b64Val c4) :: base64DecodeChars rest
  | _ => []

/-- Little-endian bytes of a list of 32-bit words (Float32Array buffer view). -/
def wordsToBytes : List Nat → List Nat
  | [] => []
  | w :: ws => w % 256 :: w / 256 % 256 :: w / 65536 % 256 :: w / 16777216 % 256 :: wordsToBytes ws

/-- Regroup little-endian bytes into 32-bit words (Float32Array over a buffer). -/
def bytesToWords : List Nat → List Nat
  | b0 :: b1 :: b2 :: b3 :: rest =>
      (b0 + 256 * b1 + 65536 * b2 + 16777216 * b3) :: bytesToWords rest
  | _ => []

/-- encodeEmbedding (index.ts line 807), on the 32-bit patterns of the floats. -/
def encodeEmbedding (v : List Nat) : String :=
  String.mk (base64EncodeBytes (wordsToBytes v))

/-- decodeEmbedding (index.ts line 812), back to the 32-bit patterns. -/
def decodeEmbedding (s : String) : List Nat :=
  bytesToWords (base64DecodeChars s.data)

/-- getEmbeddingFloat32 (index.ts line 817): a uniform numeric view of
whichever embedding form is stored, or none. -/
def getEmbeddingFloat32 (entry : V2MemoryEntry) : Option (List ℚ) :=
  match entry.embedding with
  | none => none
  | some (.legacy v) => some v
  | some (.binary v) => some v

/-- cosineSimilarityF32 (index.ts line 823).  Math.sqrt forces the model
into ℝ via Real.sqrt; everything upstream stays rational. -/
noncomputable def cosineSimilarityF32 (a b : List ℚ) : ℝ :=
  if a.length ≠ b.length then 0
  else
    let dot : ℝ := (List.zipWith (fun x y => (x : ℝ) * (y : ℝ)) a b).sum
    let normA : ℝ := (a.map (fun x => (x : ℝ) * (x : ℝ))).sum
    let normB : ℝ := (b.map (fun x => (x : ℝ) * (x : ℝ))).sum
    let denom := Real.sqrt normA * Real.sqrt normB
    if denom = 0 then 0 else dot / denom

/- ==========================================================================
   Decay & effective importance (index.ts lines 841-847)
   ========================================================================== -/

/-- The arithmetic core of effectiveImportance:
importance * max(0.3, 1 - ageDays/365) * min(2.0, 1 + accessCount*0.1). -/
def effectiveImportanceRaw (imp ageDays access : ℚ) : ℚ :=
  imp * max (3/10 : ℚ) (1 - ageDays / 365) * min (2 : ℚ) (1 + access * (1/10))

/-- effectiveImportance (index.ts line 841); `nowMs` models Date.now() and
`entry.timestampMs` models `new Date(entry.timestamp).getTime()`. -/
def effectiveImportance (entry : V2MemoryEntry) (nowMs : ℚ) : ℚ :=
  effectiveImportanceRaw entry.importance ((nowMs - entry.timestampMs) / 86400000)
    (entry.accessCount.getD 0)

/- ==========================================================================
   Graph operations (index.ts lines 853-937)
   ========================================================================== -/

/-- addRelation (index.ts line 853): append the pair unless an identical
(targetId, type) pair already exists. -/
def addRelation (entry : V2MemoryEntry) (targetId : String)
    (relType : MemoryRelationType) : V2MemoryEntry :=
  if (entry.relations.getD []).any
      (fun r => decide (r.id = targetId) && decide (r.type = relType)) then entry
  else { entry with relations := some ((entry.relations.getD []) ++ [⟨targetId, relType⟩]) }

/-- INVERSE_RELATION (index.ts line 863). -/
def INVERSE_RELATION : MemoryRelationType → MemoryRelationType
  | .caused => .caused_by
  | .caused_by => .caused
  | .related => .related
  | .supersedes => .supersedes
  | .contradicts => .contradicts
  | .elaborates => .elaborates

/-- One scored search hit (element type of searchMemories' result). -/
structure ScoredResult where
  entry : V2MemoryEntry
  score : ℚ
  keywordScore : ℚ
  semanticScore : ℚ
deriving DecidableEq, Repr

/-- One graph-expanded search hit (element type of searchWithGraph's result). -/
structure GraphResult where
  entry : V2MemoryEntry
  score : ℚ
  related : List V2MemoryEntry
deriving DecidableEq, Repr

/-- `memoryById.get(id)` where the map was filled by a forward loop over
all memories (`map.set` overwrites, so the last entry with a given id wins). -/
def lookupById (allMemories : List V2MemoryEntry) (i : String) : Option V2MemoryEntry :=
  allMemories.reverse.find? (fun m => m.id == i)

/-- The inner `for (const rel of frontier)` body of searchWithGraph:
threads (visited, related-so-far, nextFrontier) through one frontier. -/
def expandFrontier (lookup : String → Option V2MemoryEntry)
    (frontier : List MemoryRelation) (visited : List String) :
    List String × List V2MemoryEntry × List MemoryRelation :=
  frontier.foldl
    (fun acc rel =>
      let vis := acc.1
      if vis.contains rel.id then acc
      else
        let vis2 := rel.id :: vis
        match lookup rel.id with
        | some target =>
            (vis2, acc.2.1 ++ [target], acc.2.2 ++ target.relations.getD [])
        | none => (vis2, acc.2.1, acc.2.2))
    (visited, [], [])

/-- The `for (let d = 0; d < depth && frontier.length > 0; d++)` loop of
searchWithGraph, collecting related entries breadth-first. -/
def graphLoop (lookup : String → Option V2MemoryEntry) :
    Nat → List String → List MemoryRelation → List V2MemoryEntry → List V2MemoryEntry
  | 0, _, _, related => related
  | d + 1, visited, frontier, related =>
      if frontier.isEmpty then related
      else
        let step := expandFrontier lookup frontier visited
        graphLoop lookup d step.1 step.2.2 (related ++ step.2.1)

/-- searchWithGraph (index.ts line 872).  In the source the access-tracking
increment mutates the entry objects held by `results` in place; those
objects come from a different loadIndex call than `allMemories`, so the
increment is visible only through the returned records (see the C2
analysis at memory_v2_search_execute). -/
def searchWithGraph (allMemories : List V2MemoryEntry) (results : List ScoredResult)
    (depth : Nat) (nowIso : String) : List GraphResult :=
  let lookup := lookupById allMemories
  let resultIds := results.map (fun r => r.entry.id)
  results.map (fun r =>
    let entry := r.entry
    let visited := entry.id :: resultIds
    let related := graphLoop lookup depth visited (entry.relations.getD []) []
    let entry2 : V2MemoryEntry :=
      { entry with accessCount := some (entry.accessCount.getD 0 + 1),
                   lastAccessed := some nowIso }
    { entry := entry2, score := r.score, related := related })

/-- Stable insert for a descending sort: x goes after every element whose
key is ≥ its own, matching a stable JS Array.sort with comparator
(a, b) => b.key - a.key. -/
def insertDescBy {α κ : Type} [LinearOrder κ] (key : α → κ) (x : α) :
    List α → List α
  | [] => [x]
  | y :: ys => if key y < key x then x :: y :: ys else y :: insertDescBy key x ys

/-- Stable descending sort by key (insertion sort; any stable sort under a
total comparator produces this list, so it models V8's stable sort). -/
def sortDescBy {α κ : Type} [LinearOrder κ] (key : α → κ) (l : List α) : List α :=
  l.foldl (fun acc x => insertDescBy key x acc) []

/-- The candidate scan of autoLinkNewEntry (index.ts lines 917-925): every
other entry that has an embedding and whose cosine similarity with the new
entry's embedding reaches the threshold, paired with its index. -/
noncomputable def autoLinkCandidates (newEntry : V2MemoryEntry)
    (allMemories : List V2MemoryEntry) (newEmb : List ℚ) (threshold : ℝ) :
    List (Nat × ℝ) :=
  allMemories.enum.filterMap (fun p =>
    if p.2.id = newEntry.id then none
    else
      match getEmbeddingFloat32 p.2 with
      | none => none
      | some emb =>
          let sim := cosineSimilarityF32 newEmb emb
          if threshold ≤ sim then some (p.1, sim) else none)

/-- One iteration of autoLinkNewEntry's `for (const { idx } of topN)` loop
(index.ts lines 931-934): the local newEntry binding is reassigned with
the forward edge, and the matched slot of the copied array receives the
backward edge. -/
def autoLinkStep (acc : V2MemoryEntry × List V2MemoryEntry) (q : Nat × ℝ) :
    V2MemoryEntry × List V2MemoryEntry :=
  let target := acc.2.getD q.1 acc.1
  let ne2 := addRelation acc.1 target.id .related
  (ne2, acc.2.set q.1 (addRelation target ne2.id .related))

/-- autoLinkNewEntry (index.ts line 909).  Note the source reassigns the
local `newEntry` binding with addRelation's (pure) result and then never
stores it anywhere: the function returns only the `updated` array, in
which the new entry's own slot was never replaced.  The model reproduces
that by threading the (newEntryLocal, updated) pair and returning only
the second component. -/
noncomputable def autoLinkNewEntry (newEntry : V2MemoryEntry)
    (allMemories : List V2MemoryEntry) (threshold : ℝ) :
    List V2MemoryEntry :=
  match getEmbeddingFloat32 newEntry with
  | none => allMemories
  | some newEmb =>
      (((sortDescBy (fun q => q.2)
            (autoLinkCandidates newEntry allMemories newEmb threshold)).take 3).foldl
        autoLinkStep (newEntry, allMemories)).2

/- ==========================================================================
   Index store (index.ts lines 943-1099)
   ========================================================================== -/

/-- Zero-pad an integer's decimal form to a given width. -/
def zeroPad (w : Nat) (n : Int) : String :=
  let s := toString n
  if s.length < w then String.mk (List.replicate (w - s.length) '0') ++ s else s

/-- `new Date(ms).toISOString().slice(0, 10)`: the proleptic-Gregorian
calendar day of an epoch-milliseconds instant (civil-from-days algorithm). -/
def isoDateOfMs (ms : ℚ) : String :=
  let z : Int := ⌊ms / 86400000⌋ + 719468
  let era : Int := Int.fdiv z 146097
  let doe : Int := z - era * 146097
  let yoe : Int := Int.fdiv (doe - Int.fdiv doe 1460 + Int.fdiv doe 36524 - Int.fdiv doe 146096) 365
  let y : Int := yoe + era * 400
  let doy : Int := doe - (365 * yoe + Int.fdiv yoe 4 - Int.fdiv yoe 100)
  let mp : Int := Int.fdiv (5 * doy + 2) 153
  let d : Int := doy - Int.fdiv (153 * mp + 2) 5 + 1
  let m : Int := if mp < 10 then mp + 3 else mp - 9
  let y2 : Int := if m ≤ 2 then y + 1 else y
  zeroPad 4 y2 ++ "-" ++ zeroPad 2 m ++ "-" ++ zeroPad 2 d

/-- normalizeDate (index.ts line 943) on the model's domain of parseable
timestamps (the NaN branch, which falls back to the current day, is
unreachable there). -/
def normalizeDate (timestampMs : ℚ) : String :=
  isoDateOfMs timestampMs

/-- ensureDate (index.ts line 951): `if (!entry.date)` is the JS falsy
test, so both an absent date and an empty string get recomputed. -/
def ensureDate (entry : V2MemoryEntry) : V2MemoryEntry :=
  if (match entry.date with
      | none => true
      | some s => s.data.isEmpty) then
    { entry with date := some (normalizeDate entry.timestampMs) }
  else entry

/-- The per-entry serialization step of saveIndex (index.ts lines 1037-1044):
ensureDate, then encode a legacy numeric-array embedding to the base64
form (the model tags the same decoded vector as binary; encodeEmbedding
above is the byte-level codec). -/
def saveSerializeEntry (entry : V2MemoryEntry) : V2MemoryEntry :=
  match (ensureDate entry).embedding with
  | some (.legacy v) => { ensureDate entry with embedding := some (.binary v) }
  | _ => ensureDate entry

/-- The metadata line saveIndex writes (index.ts lines 1027-1034). -/
structure SaveMeta where
  version : String
  lastUpdated : String
  embeddingModel : Option String
  embeddingFormat : String
  dimensions : Nat
deriving DecidableEq, Repr

/-- saveIndex's metadata line.  The source first defaults a falsy
`index.version` to "2.1" (line 1022), but the line it writes carries the
hardcoded literal "3.0" no matter what `index.version` holds. -/
def saveIndexMeta (index : V2MemoryIndex) (nowIso : String) : SaveMeta :=
  { version := "3.0",
    lastUpdated := nowIso,
    embeddingModel := index.embeddingModel,
    embeddingFormat := "base64-f32",
    dimensions := 384 }

/-- The entry lines saveIndex writes, in order (index.ts lines 1036-1044). -/
def saveIndexMemories (index : V2MemoryIndex) : List V2MemoryEntry :=
  index.memories.map saveSerializeEntry

/-- loadIndex's result when the file is missing or blank
(index.ts lines 959-969): an empty index tagged "2.1". -/
def loadIndexMissingDefault (nowIso : String) : V2MemoryIndex :=
  { version := "2.1", lastUpdated := nowIso, memories := [], embeddingModel := none }

/-- The in-memory index migrateJsonToJsonl builds from a parsed legacy
index before handing it to saveIndex (index.ts lines 1084-1093); its
version tag is the literal "2.1". -/
def migrateJsonToJsonlIndex (legacy : V2MemoryIndex) (nowIso : String) : V2MemoryIndex :=
  { version := "2.1",
    lastUpdated := if legacy.lastUpdated.data.isEmpty then nowIso else legacy.lastUpdated,
    embeddingModel := legacy.embeddingModel,
    memories := legacy.memories.map ensureDate }

/- ==========================================================================
   Keyword scorer (index.ts lines 1105-1140)
   ========================================================================== -/

/-- String.prototype.includes: is sub a contiguous substring of s. -/
def includesAux (sub : List Char) : List Char → Bool
  | [] => sub.isEmpty
  | c :: cs => List.isPrefixOf sub (c :: cs) || includesAux sub cs

/-- String.prototype.includes on String. -/
def strIncludes (s sub : String) : Bool :=
  includesAux sub.data s.data

/-- The body of scoreKeywordMatch's `for (const term of queryTerms)` loop:
threads (score, matchedTerms) through one term.  The three category tests
are independent, so one term can raise matchedTerms by up to 3. -/
def termStep (content : String) (tags : List String) (typeStr : String)
    (acc : ℚ × Nat) (term : String) : ℚ × Nat :=
  let termLower := toLowerStr term
  let acc1 := if strIncludes content termLower then (acc.1 + 0.4, acc.2 + 1) else acc
  let acc2 := if tags.any (fun tag => strIncludes tag termLower) then (acc1.1 + 0.3, acc1.2 + 1) else acc1
  if strIncludes typeStr termLower then (acc2.1 + 0.2, acc2.2 + 1) else acc2

/-- scoreKeywordMatch (index.ts line 1105). -/
def scoreKeywordMatch (entry : V2MemoryEntry) (queryTerms : List String) : ℚ :=
  let content := toLowerStr entry.content
  let tags := entry.tags.map (fun t => toLowerStr t)
  let typeStr := toLowerStr entry.type
  let sm := queryTerms.foldl (termStep content tags typeStr) (0, 0)
  let score1 := if 0 < queryTerms.length then sm.1 / (queryTerms.length : ℚ) else sm.1
  let score2 := score1 + entry.importance / 10 * 0.2
  let score3 := if queryTerms.length ≤ sm.2 then score2 + 0.1 else score2
  min score3 1

/-- The per-term score contribution over pre-lowercased entry data:
0.4 for a content hit, 0.3 for a tag hit, 0.2 for a type hit.  This is
what one iteration of the source's loop adds to `score`. -/
def contribRaw (content : String) (tags : List String) (typeStr : String) (term : String) : ℚ :=
  (if strIncludes content (toLowerStr term) then 0.4 else 0)
  + (if tags.any (fun tag => strIncludes tag (toLowerStr term)) then 0.3 else 0)
  + (if strIncludes typeStr (toLowerStr term) then 0.2 else 0)

/-- How many of the three categories one term matches (what one loop
iteration adds to the source's matchedTerms counter: up to 3). -/
def countRaw (content : String) (tags : List String) (typeStr : String) (term : String) : Nat :=
  (if strIncludes content (toLowerStr term) then 1 else 0)
  + (if tags.any (fun tag => strIncludes tag (toLowerStr term)) then 1 else 0)
  + (if strIncludes typeStr (toLowerStr term) then 1 else 0)

/-- Per-term contribution phrased on the entry. -/
def termContribution (entry : V2MemoryEntry) (term : String) : ℚ :=
  contribRaw (toLowerStr entry.content) (entry.tags.map (fun t => toLowerStr t)) (toLowerStr entry.type) term

/-- Per-term category-match count phrased on the entry. -/
def termMatchCount (entry : V2MemoryEntry) (term : String) : Nat :=
  countRaw (toLowerStr entry.content) (entry.tags.map (fun t => toLowerStr t)) (toLowerStr entry.type) term

/-- Modelled from the words of claim C3 (the spec's §4.3): average per-term
contribution, plus a 0.1 bonus exactly when every term matched at least
once, clamped at 1.0, and no importance contribution.  Kept only to be
compared against scoreKeywordMatch. -/
def claimKeywordScore (entry : V2MemoryEntry) (queryTerms : List String) : ℚ :=
  let base := (queryTerms.map (termContribution entry)).sum / (queryTerms.length : ℚ)
  let bonus := if queryTerms.all (fun t => 0 < termMatchCount entry t) then (0.1 : ℚ) else 0
  min (base + bonus) 1

/- ==========================================================================
   Hybrid ranker (index.ts lines 1142-1198)
   ========================================================================== -/

/-- `query.toLowerCase().split(/\s+/).filter(t => t.length > 1)`
(index.ts lines 1150-1153).  Splitting at every whitespace character and
dropping pieces of length ≤ 1 equals splitting at whitespace runs. -/
def parseQueryTerms (query : String) : List String :=
  (splitWs (toLowerStr query)).filter (fun t => 1 < t.length)

/-- The score-combination step of searchMemories (index.ts lines 1180-1186),
before the importance term is added.  semanticScore is the value the
source computed just above (cosine of the query vector with the entry's
decoded embedding); the combination itself never recomputes it. -/
def entryBaseScore (queryTerms : List String) (queryEmbPresent : Bool)
    (entry : V2MemoryEntry) (semanticScore : ℚ) : ℚ :=
  let keywordScore := if 0 < queryTerms.length then scoreKeywordMatch entry queryTerms else 0
  if queryEmbPresent && entry.embedding.isSome then
    semanticScore * 0.6 + keywordScore * 0.4
  else keywordScore

/-- searchMemories (index.ts line 1142) over an already-loaded index.
`queryEmbPresent` models `queryEmbedding` being non-null and `semOf`
models `cosineSimilarityF32(queryEmbF32, getEmbeddingFloat32(entry))`,
kept opaque because Math.sqrt has no exact rational counterpart; no claim
about this function depends on the similarity values themselves. -/
def searchMemories (memories : List V2MemoryEntry) (query : String) (maxResults : Nat)
    (minScore : ℚ) (queryEmbPresent : Bool) (semOf : V2MemoryEntry → ℚ) (nowMs : ℚ) :
    List ScoredResult :=
  let queryTerms := parseQueryTerms query
  if queryTerms.length = 0 && !queryEmbPresent then []
  else
    let scored := memories.filterMap (fun entry =>
      let keywordScore := if 0 < queryTerms.length then scoreKeywordMatch entry queryTerms else 0
      let semanticScore := if queryEmbPresent && entry.embedding.isSome then semOf entry else 0
      let score := entryBaseScore queryTerms queryEmbPresent entry semanticScore
                   + effectiveImportance entry nowMs / 10 * 0.1
      if minScore ≤ score then
        some { entry := entry, score := score, keywordScore := keywordScore,
               semanticScore := semanticScore }
      else none)
    (sortDescBy (fun r => r.score) scored).take maxResults

/- ==========================================================================
   Tool: memory_v2_link (index.ts lines 1621-1665)
   ========================================================================== -/

/-- Outcome of the link tool: on failure the booleans are exactly the
sides the error text names (the template emits "Source '<id>' not found."
iff the source was missing and "Target '<id>' not found." iff the target
was); nothing is persisted on failure because saveIndex is only reached
after the check. -/
inductive LinkOutcome where
  | error (sourceMissing targetMissing : Bool)
  | ok (persisted : List V2MemoryEntry)
deriving DecidableEq, Repr

/-- One iteration of the `for (let i = 0; ...)` loop of
memory_v2_link.execute on slot i: the slot is first given the forward edge
if it is the source, then re-read and given the inverse edge if it is the
target. -/
def linkStep (sourceId targetId : String) (relType : MemoryRelationType)
    (e : V2MemoryEntry) : V2MemoryEntry :=
  if (if e.id = sourceId then addRelation e targetId relType else e).id = targetId then
    addRelation (if e.id = sourceId then addRelation e targetId relType else e)
      sourceId (INVERSE_RELATION relType)
  else (if e.id = sourceId then addRelation e targetId relType else e)

/-- The whole loop of memory_v2_link.execute: transformed entries plus the
accumulated sourceFound / targetFound flags (the target check reads the
slot after the possible source update; addRelation preserves ids, so it
tests the same id). -/
def linkLoop (sourceId targetId : String) (relType : MemoryRelationType) :
    List V2MemoryEntry → List V2MemoryEntry × Bool × Bool
  | [] => ([], false, false)
  | e :: rest =>
      let tail := linkLoop sourceId targetId relType rest
      (linkStep sourceId targetId relType e :: tail.1,
       decide (e.id = sourceId) || tail.2.1,
       decide ((if e.id = sourceId then addRelation e targetId relType else e).id = targetId)
         || tail.2.2)

/-- memory_v2_link.execute (index.ts line 1621) after loading the index. -/
def memory_v2_link_execute (memories : List V2MemoryEntry) (sourceId targetId : String)
    (relType : MemoryRelationType) : LinkOutcome :=
  let res := linkLoop sourceId targetId relType memories
  if !res.2.1 || !res.2.2 then .error (!res.2.1) (!res.2.2)
  else .ok res.1

/- ==========================================================================
   Tool: memory_v2_search (index.ts lines 1280-1339)
   ========================================================================== -/

/-- The result-path formatter of memory_v2_search.execute (line 1302):
`entry.file.startsWith("daily/") ? "memory/" + entry.file : entry.file`.
When the parsed entry has no `file`, the member access on undefined
throws a TypeError, modelled as the error branch. -/
def formatResultPath : Option String → Except String String
  | none => .error "TypeError: entry.file is undefined"
  | some f => .ok (if strStartsWith f "daily/" then "memory/" ++ f else f)

/-- What one run of memory_v2_search.execute produces and persists. -/
structure SearchExecuteOutcome where
  graphResults : List GraphResult
  persistedMeta : SaveMeta
  persistedMemories : List V2MemoryEntry
  formattedPaths : List (Except String String)
deriving Repr

/-- memory_v2_search.execute (index.ts lines 1280-1339).  The source loads
the index twice: once inside searchMemories and once in the tool body.
JSON.parse allocates fresh objects on each load, so the in-place
accessCount/lastAccessed increments that searchWithGraph applies to the
result records (which belong to the first load) never reach `index`
(the second load) — and saveIndex persists `index`.  The pure model makes
that explicit: persistedMemories derives from `stored` alone. -/
def memory_v2_search_execute (stored : V2MemoryIndex) (query : String) (maxResults : Nat)
    (minScore : ℚ) (queryEmbPresent : Bool) (semOf : V2MemoryEntry → ℚ) (nowMs : ℚ)
    (nowIso : String) : SearchExecuteOutcome :=
  let results := searchMemories stored.memories query maxResults minScore queryEmbPresent semOf nowMs
  let index := stored
  let graphResults := searchWithGraph index.memories results 1 nowIso
  { graphResults := graphResults,
    persistedMeta := saveIndexMeta index nowIso,
    persistedMemories := saveIndexMemories index,
    formattedPaths := graphResults.map (fun g => formatResultPath g.entry.file) }

/- ==========================================================================
   Concrete fixtures used by counterexamples and witnesses
   ========================================================================== -/

/-- A no-match fixture: importance 10, content/tags/type not containing
the probe term "zz". -/
def entryZ : V2MemoryEntry :=
  { id := "z1", timestampMs := 0, date := some "2026-01-01",
    type := "learning", importance := 10, content := "xyz",
    file := some "f.md", line := none, tags := [],
    embedding := none, relations := none, accessCount := none, lastAccessed := none }

/-- A fixture with an embedding (decoded unit vector along the first axis). -/
def entryE : V2MemoryEntry :=
  { id := "e1", timestampMs := 0, date := some "2026-01-01",
    type := "learning", importance := 10, content := "xyz",
    file := some "f.md", line := none, tags := [],
    embedding := some (.binary [1, 0]), relations := none, accessCount := none,
    lastAccessed := none }

/-- A second embedded fixture, with the same decoded unit vector as entryE
(so their cosine similarity is exactly 1, Math.sqrt(1) being exact). -/
def entryB : V2MemoryEntry :=
  { id := "b1", timestampMs := 0, date := some "2026-01-01",
    type := "learning", importance := 10, content := "uvw",
    file := some "g.md", line := none, tags := [],
    embedding := some (.binary [1, 0]), relations := none, accessCount := none,
    lastAccessed := none }

/- ==========================================================================
   Helper lemmas
   ========================================================================== -/

/-- One loop iteration of scoreKeywordMatch adds exactly the per-term
contribution and category count. -/
lemma termStep_fst (content : String) (tags : List String) (typeStr : String)
    (acc : ℚ × Nat) (term : String) :
    (termStep content tags typeStr acc term).1 =
      acc.1 + contribRaw content tags typeStr term := by
  simp only [termStep, contribRaw, apply_ite Prod.fst]
  split_ifs <;> ring

lemma termStep_snd (content : String) (tags : List String) (typeStr : String)
    (acc : ℚ × Nat) (term : String) :
    (termStep content tags typeStr acc term).2 =
      acc.2 + countRaw content tags typeStr term := by
  simp only [termStep, countRaw, apply_ite Prod.snd]
  split_ifs <;> omega

/-- The whole loop of scoreKeywordMatch accumulates the sums of per-term
contributions and counts. -/
lemma foldl_termStep (content : String) (tags : List String) (typeStr : String) :
    ∀ (terms : List String) (acc : ℚ × Nat),
      terms.foldl (termStep content tags typeStr) acc =
        (acc.1 + (terms.map (contribRaw content tags typeStr)).sum,
         acc.2 + (terms.map (countRaw content tags typeStr)).sum) := by
  intro terms
  induction terms with
  | nil => intro acc; simp
  | cons t ts ih =>
      intro acc
      rw [List.foldl_cons, ih]
      refine Prod.ext ?_ ?_
      · simp [termStep_fst]; ring
      · simp [termStep_snd]; omega

/-- Closed form of scoreKeywordMatch for a non-empty term list: average
per-term contribution, plus importance/10 * 0.2, plus 0.1 when the total
category-match count reaches the term count, clamped at 1. -/
lemma termContribution_eq (entry : V2MemoryEntry) :
    termContribution entry =
      contribRaw (toLowerStr entry.content) (entry.tags.map (fun t => toLowerStr t))
        (toLowerStr entry.type) := rfl

lemma termMatchCount_eq (entry : V2MemoryEntry) :
    termMatchCount entry =
      countRaw (toLowerStr entry.content) (entry.tags.map (fun t => toLowerStr t))
        (toLowerStr entry.type) := rfl

lemma scoreKeywordMatch_closed (entry : V2MemoryEntry) (terms : List String)
    (h : terms ≠ []) :
    scoreKeywordMatch entry terms =
      min ((terms.map (termContribution entry)).sum / (terms.length : ℚ)
           + entry.importance / 10 * 0.2
           + (if terms.length ≤ (terms.map (termMatchCount entry)).sum then (0.1 : ℚ) else 0)) 1 := by
  have hpos : 0 < terms.length := List.length_pos.2 h
  simp only [scoreKeywordMatch, foldl_termStep, hpos, if_true, termContribution_eq,
    termMatchCount_eq, zero_add]
  split_ifs with h1 <;> ring_nf

/- ==========================================================================
   Claims
   ========================================================================== -/

/-- ensureDate never touches accessCount. -/
lemma ensureDate_accessCount (e : V2MemoryEntry) :
    (ensureDate e).accessCount = e.accessCount := by
  unfold ensureDate
  split <;> rfl

/-- saveIndex's per-entry serialization never touches accessCount. -/
lemma saveSerializeEntry_accessCount (e : V2MemoryEntry) :
    (saveSerializeEntry e).accessCount = e.accessCount := by
  unfold saveSerializeEntry
  split <;> simp [ensureDate_accessCount]

/-- Claim C1.  The claim says an entry lacking `file` formats to the empty
path and formatting never throws.  In the source (line 1302) the result
path is computed by `entry.file.startsWith("daily/")` on the raw parsed
entry, which throws a TypeError when `file` is absent — exactly the input
of the repository's own regression test (src/unnamed/part_000, test 1),
which asserts `path === ""` and no crash.  This theorem shows: the search
tool's emitted paths are formatResultPath of each returned result entry's
`file`; a missing `file` takes the TypeError branch and yields no `.ok`
path at all (in particular not `.ok ""`); and for present files the
daily-prefix rewriting behaves as claimed. -/
theorem C1_missing_file_formatting_throws (stored : V2MemoryIndex) (query : String)
    (maxResults : Nat) (minScore : ℚ) (queryEmbPresent : Bool) (semOf : V2MemoryEntry → ℚ)
    (nowMs : ℚ) (nowIso : String) :
    (memory_v2_search_execute stored query maxResults minScore queryEmbPresent semOf
        nowMs nowIso).formattedPaths =
      (searchMemories stored.memories query maxResults minScore queryEmbPresent semOf
        nowMs).map (fun r => formatResultPath r.entry.file)
    ∧ formatResultPath none = Except.error "TypeError: entry.file is undefined"
    ∧ (∀ e, formatResultPath none ≠ Except.ok e)
    ∧ (∀ f, strStartsWith f "daily/" = true →
        formatResultPath (some f) = Except.ok ("memory/" ++ f))
    ∧ (∀ f, strStartsWith f "daily/" = false → formatResultPath (some f) = Except.ok f) := by
  refine ⟨?_, rfl, ?_, ?_, ?_⟩
  · simp only [memory_v2_search_execute, searchWithGraph, List.map_map]
    rfl
  · intro e h
    exact Except.noConfusion h
  · intro f h
    simp [formatResultPath, h]
  · intro f h
    simp [formatResultPath, h]

/-- Witness for C1's per-file formatting cases at concrete inputs. -/
theorem C1_witness :
    strStartsWith "daily/x.md" "daily/" = true
    ∧ formatResultPath (some "daily/x.md") = Except.ok ("memory/" ++ "daily/x.md")
    ∧ strStartsWith "notes.md" "daily/" = false
    ∧ formatResultPath (some "notes.md") = Except.ok "notes.md" :=
  ⟨rfl,
   (C1_missing_file_formatting_throws (loadIndexMissingDefault "t") "q" 5 0 false
      (fun _ => 0) 0 "t").2.2.2.1 "daily/x.md" rfl,
   rfl,
   (C1_missing_file_formatting_throws (loadIndexMissingDefault "t") "q" 5 0 false
      (fun _ => 0) 0 "t").2.2.2.2 "notes.md" rfl⟩

/-- Claim C2.  Graph expansion does increment each returned result entry's
accessCount by one (first conjunct) — but the index the tool passes to
saveIndex is a second, freshly parsed load whose entry objects the
in-place increments never touched (the increments land on the first
load's objects, held by `results`), despite the source's own
`// Persist access tracking` comment.  So for every search whatsoever the
persisted accessCounts are exactly the stored ones, never the incremented
ones (second conjunct), refuting the persistence half of the claim. -/
theorem C2_access_tracking_not_persisted (stored : V2MemoryIndex) (query : String)
    (maxResults : Nat) (minScore : ℚ) (queryEmbPresent : Bool) (semOf : V2MemoryEntry → ℚ)
    (nowMs : ℚ) (nowIso : String) :
    ((memory_v2_search_execute stored query maxResults minScore queryEmbPresent semOf
        nowMs nowIso).graphResults.map (fun g => g.entry.accessCount)) =
      ((searchMemories stored.memories query maxResults minScore queryEmbPresent semOf
        nowMs).map (fun r => some (r.entry.accessCount.getD 0 + 1)))
    ∧ ((memory_v2_search_execute stored query maxResults minScore queryEmbPresent semOf
        nowMs nowIso).persistedMemories.map (fun e => e.accessCount)) =
      stored.memories.map (fun e => e.accessCount) := by
  constructor
  · simp only [memory_v2_search_execute, searchWithGraph, List.map_map]
    rfl
  · simp only [memory_v2_search_execute, saveIndexMemories, List.map_map]
    exact List.map_congr_left (fun e _ => saveSerializeEntry_accessCount e)

/-- Claim C3, counterexample: the claim says the keyword scorer adds no
contribution from raw importance, but the source adds
`(entry.importance / 10) * 0.2` (line 1133).  On an entry of importance 10
matching nothing, the claim's formula gives 0 while the code gives 0.2. -/
theorem C3_counterexample :
    scoreKeywordMatch entryZ ["zz"] = 1/5
    ∧ claimKeywordScore entryZ ["zz"] = 0
    ∧ scoreKeywordMatch entryZ ["zz"] ≠ claimKeywordScore entryZ ["zz"] := by
  have h1 : scoreKeywordMatch entryZ ["zz"] = 1/5 := by
    norm_num +decide [scoreKeywordMatch, termStep, entryZ, strIncludes, includesAux,
      toLowerStr, min_def]
  have h2 : claimKeywordScore entryZ ["zz"] = 0 := by
    norm_num +decide [claimKeywordScore, termContribution, termMatchCount, contribRaw,
      countRaw, entryZ, min_def]
  refine ⟨h1, h2, ?_⟩
  rw [h1, h2]
  norm_num

/-- Claim C3 as amended: the keyword score is the average per-term
contribution (0.4 content, 0.3 tag, 0.2 type), plus `importance/10 * 0.2`,
plus a 0.1 bonus exactly when the total category-match count (which one
term can raise by up to 3) reaches the term count, clamped at 1.0. -/
theorem C3_keyword_score_formula (entry : V2MemoryEntry) (terms : List String)
    (h : terms ≠ []) :
    scoreKeywordMatch entry terms =
      min ((terms.map (termContribution entry)).sum / (terms.length : ℚ)
           + entry.importance / 10 * 0.2
           + (if terms.length ≤ (terms.map (termMatchCount entry)).sum then (0.1 : ℚ) else 0)) 1 :=
  scoreKeywordMatch_closed entry terms h

/-- Witness for C3's amended formula at a concrete input. -/
theorem C3_witness :
    (["zz"] : List String) ≠ []
    ∧ scoreKeywordMatch entryZ ["zz"] =
        min (((["zz"] : List String).map (termContribution entryZ)).sum
              / (([("zz" : String)] : List String).length : ℚ)
             + entryZ.importance / 10 * 0.2
             + (if (["zz"] : List String).length
                  ≤ ((["zz"] : List String).map (termMatchCount entryZ)).sum
                then (0.1 : ℚ) else 0)) 1 :=
  ⟨by decide, C3_keyword_score_formula entryZ ["zz"] (by decide)⟩

/-- Claim C9: for importance between 1 and 10 and a non-empty term list,
the keyword score lies in [0, 1] (the clamp gives the upper bound, and
every additive part is nonnegative). -/
theorem C9_keyword_score_range (entry : V2MemoryEntry) (terms : List String)
    (h1 : 1 ≤ entry.importance) (h2 : entry.importance ≤ 10) (h : terms ≠ []) :
    0 ≤ scoreKeywordMatch entry terms ∧ scoreKeywordMatch entry terms ≤ 1 := by
  rw [scoreKeywordMatch_closed entry terms h]
  refine ⟨le_min ?_ zero_le_one, min_le_right _ _⟩
  have hsum : 0 ≤ (terms.map (termContribution entry)).sum := by
    apply List.sum_nonneg
    intro x hx
    obtain ⟨t, _, rfl⟩ := List.mem_map.1 hx
    unfold termContribution contribRaw
    split_ifs <;> norm_num
  have hdiv : 0 ≤ (terms.map (termContribution entry)).sum / (terms.length : ℚ) :=
    div_nonneg hsum (by positivity)
  have himp0 : (0 : ℚ) ≤ entry.importance := le_trans zero_le_one h1
  have himp : 0 ≤ entry.importance / 10 * 0.2 := by positivity
  have hbonus : 0 ≤ (if terms.length ≤ (terms.map (termMatchCount entry)).sum
      then (0.1 : ℚ) else 0) := by
    split_ifs <;> norm_num
  linarith

/-- Witness for C9 at a concrete input. -/
theorem C9_witness :
    (1 ≤ entryZ.importance ∧ entryZ.importance ≤ 10 ∧ (["zz"] : List String) ≠ [])
    ∧ 0 ≤ scoreKeywordMatch entryZ ["zz"] ∧ scoreKeywordMatch entryZ ["zz"] ≤ 1 :=
  ⟨⟨by decide, by decide, by decide⟩,
   C9_keyword_score_range entryZ ["zz"] (by decide) (by decide) (by decide)⟩

/-- Claim C8: effectiveImportance is importance times the age-decay factor
max(0.3, 1 - ageDays/365) times the access boost min(2, 1 + 0.1*count);
it is non-increasing in age, non-decreasing in access count, and bounded
by importance * [0.3, 2] for nonnegative age. -/
theorem C8_effective_importance (e : V2MemoryEntry) (nowMs imp a a2 c c2 : ℚ)
    (himp : 0 ≤ imp) (hc : 0 ≤ c) (hc2 : 0 ≤ c2) :
    effectiveImportance e nowMs =
      e.importance * max (3/10) (1 - (nowMs - e.timestampMs) / 86400000 / 365)
        * min 2 (1 + e.accessCount.getD 0 * (1/10))
    ∧ (a ≤ a2 → effectiveImportanceRaw imp a2 c ≤ effectiveImportanceRaw imp a c)
    ∧ (c ≤ c2 → effectiveImportanceRaw imp a c ≤ effectiveImportanceRaw imp a c2)
    ∧ (0 ≤ a → imp * (3/10) ≤ effectiveImportanceRaw imp a c
        ∧ effectiveImportanceRaw imp a c ≤ imp * 2) := by
  refine ⟨rfl, ?_, ?_, ?_⟩
  · intro ha
    unfold effectiveImportanceRaw
    have hD : max (3/10 : ℚ) (1 - a2/365) ≤ max (3/10 : ℚ) (1 - a/365) :=
      max_le_max le_rfl (by linarith)
    have hB : (0:ℚ) ≤ min 2 (1 + c * (1/10)) := le_min (by norm_num) (by linarith)
    exact mul_le_mul_of_nonneg_right (mul_le_mul_of_nonneg_left hD himp) hB
  · intro hcc
    unfold effectiveImportanceRaw
    have hD0 : (0:ℚ) ≤ max (3/10 : ℚ) (1 - a/365) :=
      le_trans (by norm_num) (le_max_left _ _)
    have hB : min (2:ℚ) (1 + c * (1/10)) ≤ min 2 (1 + c2 * (1/10)) :=
      min_le_min le_rfl (by linarith)
    exact mul_le_mul_of_nonneg_left hB (mul_nonneg himp hD0)
  · intro ha
    unfold effectiveImportanceRaw
    have ha365 : (0:ℚ) ≤ a / 365 := by positivity
    have hc10 : (0:ℚ) ≤ c * (1/10) := by positivity
    have hD1 : (3/10:ℚ) ≤ max (3/10 : ℚ) (1 - a/365) := le_max_left _ _
    have hD2 : max (3/10 : ℚ) (1 - a/365) ≤ 1 := max_le (by norm_num) (by linarith)
    have hB1 : (1:ℚ) ≤ min 2 (1 + c * (1/10)) := le_min (by norm_num) (by linarith)
    have hB2 : min (2:ℚ) (1 + c * (1/10)) ≤ 2 := min_le_left _ _
    have hD0 : (0:ℚ) ≤ max (3/10 : ℚ) (1 - a/365) := le_trans (by norm_num) hD1
    constructor
    · calc imp * (3/10)
          ≤ imp * (max (3/10 : ℚ) (1 - a/365)) * 1 := by
            rw [mul_one]
            exact mul_le_mul_of_nonneg_left hD1 himp
        _ ≤ imp * (max (3/10 : ℚ) (1 - a/365)) * (min 2 (1 + c * (1/10))) :=
            mul_le_mul_of_nonneg_left hB1 (mul_nonneg himp hD0)
    · calc imp * (max (3/10 : ℚ) (1 - a/365)) * (min 2 (1 + c * (1/10)))
          ≤ imp * (max (3/10 : ℚ) (1 - a/365)) * 2 :=
            mul_le_mul_of_nonneg_left hB2 (mul_nonneg himp hD0)
        _ ≤ imp * 1 * 2 :=
            mul_le_mul_of_nonneg_right (mul_le_mul_of_nonneg_left hD2 himp) (by norm_num)
        _ = imp * 2 := by ring

/-- Witness for C8 at concrete inputs. -/
theorem C8_witness :
    effectiveImportance entryZ 0 =
      entryZ.importance * max (3/10) (1 - (0 - entryZ.timestampMs) / 86400000 / 365)
        * min 2 (1 + entryZ.accessCount.getD 0 * (1/10))
    ∧ effectiveImportanceRaw 5 2 0 ≤ effectiveImportanceRaw 5 1 0
    ∧ effectiveImportanceRaw 5 1 0 ≤ effectiveImportanceRaw 5 1 3
    ∧ (5 * (3/10) ≤ effectiveImportanceRaw 5 1 0
        ∧ effectiveImportanceRaw 5 1 0 ≤ 5 * 2) := by
  obtain ⟨h1, h2, h3, h4⟩ :=
    C8_effective_importance entryZ 0 5 1 2 0 3 (by norm_num) (by norm_num) (by norm_num)
  exact ⟨h1, h2 (by norm_num), h3 (by norm_num), h4 (by norm_num)⟩

/-- Claim C4, counterexample: for a semantic-only query (no keyword terms)
against an embedded entry, the claim says the combined score equals the
semantic score; the source (line 1183) still computes
0.6*semantic + 0.4*keyword with keyword = 0, giving 0.6*semantic.  With
semanticScore 1 (identical unit vectors, where Math.sqrt is exact) the
code's combination yields 0.6, not 1. -/
theorem C4_counterexample :
    entryBaseScore [] true entryE 1 = 3/5 ∧ (3/5 : ℚ) ≠ 1 := by
  constructor
  · norm_num [entryBaseScore, entryE, scoreKeywordMatch]
  · norm_num

/-- Claim C4 as amended: with both a query vector and an entry embedding
the pre-importance score is 0.6*semantic + 0.4*keyword; with either side
missing it is the keyword score alone; a semantic-only query (no usable
terms) against an embedded entry scores 0.6*semantic (not semantic); and
a query with no usable terms and no query vector returns no results. -/
theorem C4_hybrid_combination (queryTerms : List String) (entry : V2MemoryEntry) (s : ℚ)
    (memories : List V2MemoryEntry) (query : String) (maxResults : Nat) (minScore : ℚ)
    (semOf : V2MemoryEntry → ℚ) (nowMs : ℚ) :
    (entry.embedding.isSome = true →
        entryBaseScore queryTerms true entry s =
          s * 0.6 + (if 0 < queryTerms.length then scoreKeywordMatch entry queryTerms else 0) * 0.4)
    ∧ (entry.embedding.isSome = false →
        entryBaseScore queryTerms true entry s =
          (if 0 < queryTerms.length then scoreKeywordMatch entry queryTerms else 0))
    ∧ entryBaseScore queryTerms false entry s =
        (if 0 < queryTerms.length then scoreKeywordMatch entry queryTerms else 0)
    ∧ (entry.embedding.isSome = true → entryBaseScore [] true entry s = s * 0.6)
    ∧ (parseQueryTerms query = [] →
        searchMemories memories query maxResults minScore false semOf nowMs = []) := by
  refine ⟨?_, ?_, ?_, ?_, ?_⟩
  · intro h
    simp [entryBaseScore, h]
  · intro h
    simp [entryBaseScore, h]
  · simp [entryBaseScore]
  · intro h
    simp [entryBaseScore, h]
  · intro h
    simp [searchMemories, h]

/-- Witness for C4 at concrete inputs. -/
theorem C4_witness :
    (entryBaseScore ["ab"] true entryE 2 =
        2 * 0.6 + (if 0 < (["ab"] : List String).length
          then scoreKeywordMatch entryE ["ab"] else 0) * 0.4)
    ∧ (entryBaseScore ["ab"] true entryZ 2 =
        (if 0 < (["ab"] : List String).length then scoreKeywordMatch entryZ ["ab"] else 0))
    ∧ (entryBaseScore [] true entryE 2 = 2 * 0.6)
    ∧ searchMemories [entryE] "x" 5 0 false (fun _ => 0) 0 = [] :=
  ⟨(C4_hybrid_combination ["ab"] entryE 2 [entryE] "x" 5 0 (fun _ => 0) 0).1 (by decide),
   (C4_hybrid_combination ["ab"] entryZ 2 [entryE] "x" 5 0 (fun _ => 0) 0).2.1 (by decide),
   (C4_hybrid_combination [] entryE 2 [entryE] "x" 5 0 (fun _ => 0) 0).2.2.2.1 (by decide),
   (C4_hybrid_combination [] entryE 2 [entryE] "x" 5 0 (fun _ => 0) 0).2.2.2.2 (by decide)⟩

/-- Claim C10: the metadata line written by saveIndex always carries
version "3.0", embeddingFormat "base64-f32" and dimensions 384, whatever
the index's own version tag is — including the "2.1" default produced by
loadIndex for a missing file and by the legacy-JSON migration. -/
theorem C10_save_meta_always_v3 (index legacy : V2MemoryIndex) (nowIso : String) :
    (saveIndexMeta index nowIso).version = "3.0"
    ∧ (saveIndexMeta index nowIso).embeddingFormat = "base64-f32"
    ∧ (saveIndexMeta index nowIso).dimensions = 384
    ∧ (loadIndexMissingDefault nowIso).version = "2.1"
    ∧ (migrateJsonToJsonlIndex legacy nowIso).version = "2.1"
    ∧ (saveIndexMeta { index with version := "2.1" } nowIso).version = "3.0" := by
  exact ⟨rfl, rfl, rfl, rfl, rfl, rfl⟩

/- ==========================================================================
   Claim C7: the embedding codec round-trips
   ========================================================================== -/

/-- The base64 alphabet map is inverted by b64Val on 6-bit values. -/
lemma b64Val_b64Char : ∀ n, n < 64 → b64Val (b64Char n) = n := by decide

/-- The alphabet never produces the padding character. -/
lemma b64Char_ne_pad : ∀ n, n < 64 → b64Char n ≠ '=' := by decide

/-- Decoding one encoded 3-byte chunk reproduces the bytes. -/
lemma base64_chunk (b1 b2 b3 : Nat) (h1 : b1 < 256) (h2 : b2 < 256) (h3 : b3 < 256)
    (rest : List Nat) :
    base64DecodeChars (base64EncodeBytes (b1 :: b2 :: b3 :: rest)) =
      b1 :: b2 :: b3 :: base64DecodeChars (base64EncodeBytes rest) := by
  have e1 : b1 / 4 < 64 := by omega
  have e2 : b1 % 4 * 16 + b2 / 16 < 64 := by omega
  have e3 : b2 % 16 * 4 + b3 / 64 < 64 := by omega
  have e4 : b3 % 64 < 64 := by omega
  simp only [base64EncodeBytes, base64DecodeChars]
  rw [if_neg (b64Char_ne_pad _ e3), if_neg (b64Char_ne_pad _ e4)]
  rw [b64Val_b64Char _ e1, b64Val_b64Char _ e2, b64Val_b64Char _ e3, b64Val_b64Char _ e4]
  simp only [List.cons.injEq]
  refine ⟨by omega, by omega, by omega, trivial⟩

/-- Base64 round-trips on byte lists whose length is a multiple of 3
(the only case the 384-float codec produces: 1536 bytes). -/
lemma base64_roundtrip_triples : ∀ (bytes : List Nat), (∀ b ∈ bytes, b < 256) →
    bytes.length % 3 = 0 → base64DecodeChars (base64EncodeBytes bytes) = bytes
  | [], _, _ => rfl
  | [_], _, hl => by simp at hl
  | [_, _], _, hl => by simp at hl
  | b1 :: b2 :: b3 :: rest, hb, hl => by
      rw [base64_chunk b1 b2 b3 (hb b1 (by simp)) (hb b2 (by simp)) (hb b3 (by simp)),
        base64_roundtrip_triples rest (fun b hbm => hb b (by simp [hbm])) (by
          simp only [List.length_cons] at hl ⊢
          omega)]

/-- Every byte of the Float32Array buffer view is a byte. -/
lemma wordsToBytes_lt (v : List Nat) : ∀ b ∈ wordsToBytes v, b < 256 := by
  induction v with
  | nil =>
      intro b hb
      simp [wordsToBytes] at hb
  | cons w ws ih =>
      intro b hb
      simp only [wordsToBytes, List.mem_cons] at hb
      rcases hb with h | h | h | h | h
      · omega
      · omega
      · omega
      · omega
      · exact ih b h

/-- The buffer of n words holds 4n bytes. -/
lemma wordsToBytes_length (v : List Nat) : (wordsToBytes v).length = 4 * v.length := by
  induction v with
  | nil => rfl
  | cons w ws ih =>
      simp only [wordsToBytes, List.length_cons, ih]
      omega

/-- Regrouping the little-endian bytes recovers each 32-bit word. -/
lemma bytesToWords_wordsToBytes : ∀ v : List Nat, (∀ x ∈ v, x < 4294967296) →
    bytesToWords (wordsToBytes v) = v
  | [], _ => rfl
  | w :: ws, h => by
      rw [wordsToBytes, bytesToWords,
        bytesToWords_wordsToBytes ws (fun x hx => h x (by simp [hx]))]
      congr 1
      have := h w (by simp)
      omega

/-- Claim C7: decodeEmbedding ∘ encodeEmbedding is the identity on
384-element vectors of 32-bit float patterns — the text encoding is
bit-lossless (384 floats give 1536 bytes, a multiple of 3, so the base64
form is unpadded and every byte round-trips exactly). -/
theorem C7_embedding_roundtrip (v : List Nat) (hlen : v.length = 384)
    (hval : ∀ x ∈ v, x < 4294967296) :
    decodeEmbedding (encodeEmbedding v) = v := by
  unfold decodeEmbedding encodeEmbedding
  have hdata : (String.mk (base64EncodeBytes (wordsToBytes v))).data
      = base64EncodeBytes (wordsToBytes v) := rfl
  rw [hdata, base64_roundtrip_triples (wordsToBytes v) (wordsToBytes_lt v)
      (by rw [wordsToBytes_length, hlen]),
    bytesToWords_wordsToBytes v hval]

/-- Witness for C7: the 384-vector of the bit pattern of 1.0f round-trips. -/
theorem C7_witness :
    (List.replicate 384 1065353216).length = 384
    ∧ (∀ x ∈ List.replicate 384 1065353216, x < 4294967296)
    ∧ decodeEmbedding (encodeEmbedding (List.replicate 384 1065353216))
        = List.replicate 384 1065353216 :=
  ⟨List.length_replicate 384 1065353216,
   fun x hx => by
     obtain ⟨-, rfl⟩ := List.mem_replicate.1 hx
     omega,
   C7_embedding_roundtrip _ (List.length_replicate 384 1065353216)
     (fun x hx => by
       obtain ⟨-, rfl⟩ := List.mem_replicate.1 hx
       omega)⟩

/- ==========================================================================
   Claim C6: the link tool
   ========================================================================== -/

/-- addRelation never changes the entry's id. -/
lemma addRelation_id (e : V2MemoryEntry) (t : String) (r : MemoryRelationType) :
    (addRelation e t r).id = e.id := by
  unfold addRelation
  split <;> rfl

/-- Conditionally applied addRelation never changes the entry's id. -/
lemma ite_addRelation_id (c : Prop) [Decidable c] (e : V2MemoryEntry) (x : String)
    (r : MemoryRelationType) :
    (if c then addRelation e x r else e).id = e.id := by
  split
  · exact addRelation_id e x r
  · rfl

/-- After addRelation the requested pair is present (either it already was,
by idempotence, or it was appended). -/
lemma addRelation_mem_self (e : V2MemoryEntry) (t : String) (r : MemoryRelationType) :
    (⟨t, r⟩ : MemoryRelation) ∈ (addRelation e t r).relations.getD [] := by
  unfold addRelation
  split
  · rename_i h
    obtain ⟨x, hx, hxp⟩ := List.any_eq_true.1 h
    have hx2 : x = ⟨t, r⟩ := by
      simp only [Bool.and_eq_true, decide_eq_true_eq] at hxp
      cases x
      simp_all
    rwa [hx2] at hx
  · simp

/-- addRelation preserves every pair already present. -/
lemma addRelation_superset (e : V2MemoryEntry) (t : String) (r : MemoryRelationType)
    (x : MemoryRelation) (hx : x ∈ e.relations.getD []) :
    x ∈ (addRelation e t r).relations.getD [] := by
  unfold addRelation
  split
  · exact hx
  · simp only [Option.getD_some]
    exact List.mem_append_left _ hx

/-- One link-loop step never changes the slot's id. -/
lemma linkStep_id (sid tid : String) (t : MemoryRelationType) (e : V2MemoryEntry) :
    (linkStep sid tid t e).id = e.id := by
  unfold linkStep
  rw [ite_addRelation_id, ite_addRelation_id]

/-- A source slot carries the forward edge after its link-loop step. -/
lemma linkStep_mem_source (sid tid : String) (t : MemoryRelationType) (e : V2MemoryEntry)
    (hs : e.id = sid) :
    (⟨tid, t⟩ : MemoryRelation) ∈ (linkStep sid tid t e).relations.getD [] := by
  unfold linkStep
  rw [if_pos hs]
  split
  · exact addRelation_superset _ _ _ _ (addRelation_mem_self e tid t)
  · exact addRelation_mem_self e tid t

/-- A target slot carries the inverse edge after its link-loop step. -/
lemma linkStep_mem_target (sid tid : String) (t : MemoryRelationType) (e : V2MemoryEntry)
    (ht : e.id = tid) :
    (⟨sid, INVERSE_RELATION t⟩ : MemoryRelation) ∈ (linkStep sid tid t e).relations.getD [] := by
  unfold linkStep
  by_cases hs : e.id = sid
  · rw [if_pos hs, if_pos (by rw [addRelation_id]; exact ht)]
    exact addRelation_mem_self _ _ _
  · rw [if_neg hs, if_pos ht]
    exact addRelation_mem_self _ _ _

/-- The found flags the loop accumulates are the List.any of the id tests. -/
lemma linkLoop_flags (sid tid : String) (t : MemoryRelationType) :
    ∀ ms : List V2MemoryEntry,
      (linkLoop sid tid t ms).2.1 = ms.any (fun e => decide (e.id = sid))
      ∧ (linkLoop sid tid t ms).2.2 = ms.any (fun e => decide (e.id = tid)) := by
  intro ms
  induction ms with
  | nil => exact ⟨rfl, rfl⟩
  | cons e rest ih =>
      constructor
      · simp only [linkLoop, List.any_cons, ih.1]
      · simp only [linkLoop, List.any_cons, ih.2, ite_addRelation_id]

/-- The loop preserves the number of entries. -/
lemma linkLoop_length (sid tid : String) (t : MemoryRelationType) :
    ∀ ms : List V2MemoryEntry, (linkLoop sid tid t ms).1.length = ms.length := by
  intro ms
  induction ms with
  | nil => rfl
  | cons e rest ih => simp only [linkLoop, List.length_cons, ih]

/-- Every entry of the transformed list carries the forward edge if it is
the source and the inverse edge if it is the target. -/
lemma linkLoop_mem (sid tid : String) (t : MemoryRelationType) :
    ∀ ms : List V2MemoryEntry, ∀ e2 ∈ (linkLoop sid tid t ms).1,
      (e2.id = sid → (⟨tid, t⟩ : MemoryRelation) ∈ e2.relations.getD [])
      ∧ (e2.id = tid → (⟨sid, INVERSE_RELATION t⟩ : MemoryRelation) ∈ e2.relations.getD [])
  | [] => by
      intro e2 h
      simp [linkLoop] at h
  | e :: rest => by
      intro e2 h
      simp only [linkLoop, List.mem_cons] at h
      rcases h with rfl | h
      · constructor
        · intro hs
          exact linkStep_mem_source sid tid t e (by rw [← linkStep_id sid tid t e]; exact hs)
        · intro ht
          exact linkStep_mem_target sid tid t e (by rw [← linkStep_id sid tid t e]; exact ht)
      · exact linkLoop_mem sid tid t rest e2 h

/-- Bool any of a decidable id test equals the decided existential. -/
lemma any_decide_eq (p : String → Prop) [DecidablePred p] :
    ∀ l : List V2MemoryEntry, (l.any fun e => decide (p e.id)) = decide (∃ e ∈ l, p e.id)
  | [] => by simp
  | e :: rest => by
      rw [List.any_cons, any_decide_eq p rest]
      by_cases h : p e.id <;> simp [h]

/-- Claim C6: the link tool adds the forward edge on the source entry and
the inverse-type edge on the target (caused and caused_by are mutual
inverses; every other type is self-inverse); it persists via saveIndex
only when both ids were found; otherwise nothing reaches saveIndex and the
error names exactly the missing side or sides. -/
theorem C6_link_bidirectional (memories : List V2MemoryEntry) (sid tid : String)
    (t : MemoryRelationType) :
    (INVERSE_RELATION .caused = .caused_by ∧ INVERSE_RELATION .caused_by = .caused
      ∧ ∀ u, u ≠ .caused → u ≠ .caused_by → INVERSE_RELATION u = u)
    ∧ ((∃ e ∈ memories, e.id = sid) → (∃ e ∈ memories, e.id = tid) →
        ∃ upd, memory_v2_link_execute memories sid tid t = .ok upd
          ∧ upd.length = memories.length
          ∧ ∀ e2 ∈ upd,
              (e2.id = sid → (⟨tid, t⟩ : MemoryRelation) ∈ e2.relations.getD [])
              ∧ (e2.id = tid →
                  (⟨sid, INVERSE_RELATION t⟩ : MemoryRelation) ∈ e2.relations.getD []))
    ∧ (¬ ((∃ e ∈ memories, e.id = sid) ∧ (∃ e ∈ memories, e.id = tid)) →
        memory_v2_link_execute memories sid tid t =
          .error (!(decide (∃ e ∈ memories, e.id = sid)))
                 (!(decide (∃ e ∈ memories, e.id = tid)))) := by
  have hflags := linkLoop_flags sid tid t memories
  have h1 : (linkLoop sid tid t memories).2.1 = decide (∃ e ∈ memories, e.id = sid) := by
    rw [hflags.1, any_decide_eq (fun x => x = sid) memories]
  have h2 : (linkLoop sid tid t memories).2.2 = decide (∃ e ∈ memories, e.id = tid) := by
    rw [hflags.2, any_decide_eq (fun x => x = tid) memories]
  refine ⟨⟨rfl, rfl, ?_⟩, ?_, ?_⟩
  · intro u hu1 hu2
    cases u <;> simp_all [INVERSE_RELATION]
  · intro hs ht
    refine ⟨(linkLoop sid tid t memories).1, ?_, linkLoop_length sid tid t memories,
      linkLoop_mem sid tid t memories⟩
    simp only [memory_v2_link_execute, h1, h2, decide_eq_true hs, decide_eq_true ht,
      Bool.not_true, Bool.or_self, Bool.false_eq_true, if_false]
  · intro hpq
    simp only [memory_v2_link_execute, h1, h2]
    rw [if_pos]
    rcases not_and_or.1 hpq with h | h <;> simp [h]

/-- Witness for C6 at a concrete two-entry index. -/
theorem C6_witness :
    ∃ upd, memory_v2_link_execute [entryZ, entryE] "z1" "e1" .caused = .ok upd
      ∧ upd.length = ([entryZ, entryE] : List V2MemoryEntry).length
      ∧ ∀ e2 ∈ upd,
          (e2.id = "z1" → (⟨"e1", .caused⟩ : MemoryRelation) ∈ e2.relations.getD [])
          ∧ (e2.id = "e1" →
              (⟨"z1", INVERSE_RELATION .caused⟩ : MemoryRelation) ∈ e2.relations.getD []) :=
  (C6_link_bidirectional [entryZ, entryE] "z1" "e1" .caused).2.1
    ⟨entryZ, by simp, rfl⟩ ⟨entryE, by simp, rfl⟩

/- ==========================================================================
   Claim C5: the auto-linker
   ========================================================================== -/

/-- Cosine similarity of the (decoded) unit vector with itself is exactly 1
(all intermediates — dot 1, norms 1, sqrt 1 — are exact in float64 too). -/
lemma cosine_unit : cosineSimilarityF32 [1, 0] [1, 0] = 1 := by
  unfold cosineSimilarityF32
  norm_num [Real.sqrt_one]

/-- Claim C5: evaluating autoLinkNewEntry on the failing input.  entryE is
the newly embedded entry and entryB an existing entry at similarity 1
(≥ 0.65), so the claim demands a symmetric related edge on both.  The
source adds the backward edge b1 → e1 on the matched entry's slot but
assigns the new entry's updated record only to the local variable
`newEntry`, which is then discarded — so the returned array carries entryE
unchanged, with no forward edge e1 → b1: the symmetry half of the claim
fails on the code. -/
theorem C5_autolink_drops_forward_edge :
    autoLinkNewEntry entryE [entryE, entryB] (13/20) =
      [entryE, { entryB with relations := some [⟨"e1", .related⟩] }]
    ∧ (autoLinkNewEntry entryE [entryE, entryB] (13/20)).head? = some entryE := by
  have hsim : (13/20 : ℝ) ≤ cosineSimilarityF32 [1, 0] [1, 0] := by
    rw [cosine_unit]
    norm_num
  have hcand : autoLinkCandidates entryE [entryE, entryB] [1, 0] (13/20) = [(1, 1)] := by
    simp only [autoLinkCandidates, List.enum, List.enumFrom, List.filterMap_cons,
      List.filterMap_nil, getEmbeddingFloat32, entryE, entryB]
    norm_num +decide [hsim, cosine_unit]
  have hmain : autoLinkNewEntry entryE [entryE, entryB] (13/20) =
      [entryE, { entryB with relations := some [⟨"e1", .related⟩] }] := by
    have hemb : getEmbeddingFloat32 entryE = some [1, 0] := rfl
    simp only [autoLinkNewEntry, hemb, hcand]
    norm_num +decide [sortDescBy, insertDescBy, autoLinkStep, addRelation, entryE, entryB,
      List.getD]
  refine ⟨hmain, ?_⟩
  rw [hmain]
  rfl

end OpenClawMemoryV2
